import Mathlib

/-!
Verification of the `cor.adt` record framework (pycor).

This file shallowly embeds the parts of `src/cor/adt/operation.py`,
`src/cor/adt/error.py` and `src/cor/adt/record.py` that the frozen claims
talk about, and proves or refutes each claim against that embedding.

Modelling conventions:

* Python values that flow through field conversions are modelled by the
  first-order type `Val` (None, bools, ints, strings, Tag enum members,
  lists, string-keyed dicts).  Python `==` on these values is modelled by
  structural equality (`decide (a = b)`); Python `is` on `None` and on Tag
  enum members coincides with structural equality because those objects are
  singletons, which are the only uses the embedded code makes of `is`.
* Python exceptions are modelled by `Exc`: an exception kind plus the
  `__cause__` link installed by `raise ... from ...`.  The framework
  hierarchy from `error.py` is reflected in `ExcKind`; `isFrameworkError`
  answers `isinstance(e, error.Error)` and `isFieldError` answers
  `isinstance(e, FieldError)` (note that in the source `MissingFieldError`
  and `InvalidFieldError` derive from `Error`, not from `FieldError`).
* Fallible Python code is modelled with `Except Exc`.
* Python dicts are modelled as insertion-ordered association lists with
  string keys; `dictInsert` mirrors `{**d, k: v}` (an existing key keeps
  its position, a new key is appended).
* Conversion callables (the `convert` argument of `SimpleConversion`) and
  construction hooks are arbitrary Python callables; they are embedded as
  Lean functions returning `Except Exc Val`.
-/

namespace Pycor

/-- Python values handled by the record framework.  The scalar universe
(None, bools, ints, strings, `Tag` enum members) is enough for every claim;
conversion callables may still compute arbitrarily on it. -/
inductive Val where
  | none : Val
  | bool (b : Bool) : Val
  | int (n : Int) : Val
  | str (s : String) : Val
  | tag (tagType : String) (value : String) : Val
deriving DecidableEq, Repr, Inhabited

/-- Python truthiness for the embedded values (`bool(v)`). -/
def truthy : Val → Bool
  | .none => false
  | .bool b => b
  | .int n => decide (n ≠ 0)
  | .str s => decide (s ≠ "")
  | .tag _ _ => true

/-- A rough `repr` of a value, used only inside diagnostic strings. -/
def reprVal : Val → String
  | .none => "None"
  | .bool b => if b then "True" else "False"
  | .int n => toString n
  | .str s => s
  | .tag t v => t ++ "." ++ v

/-- The Python types the embedded code checks with `isinstance`. -/
inductive PyType where
  | intT : PyType
  | strT : PyType
  | boolT : PyType
  | noneT : PyType
  | tagT (name : String) : PyType
deriving DecidableEq, Repr

/-- Name of a Python type (`t.__name__`). -/
def typeName : PyType → String
  | .intT => "int"
  | .strT => "str"
  | .boolT => "bool"
  | .noneT => "NoneType"
  | .tagT n => n

/-- Python `isinstance(v, t)`; `bool` is a subclass of `int` as in CPython. -/
def isinstanceOf : Val → PyType → Bool
  | .int _, .intT => true
  | .bool _, .intT => true
  | .bool _, .boolT => true
  | .str _, .strT => true
  | .none, .noneT => true
  | .tag t _, .tagT n => decide (t = n)
  | _, _ => false

/-- A Python dict with string keys, as an insertion-ordered association list. -/
abbrev PyDict := List (String × Val)

/-- Python `d[k]` / `d.get(k)`: first entry with the given key, if any. -/
def dictGet : PyDict → String → Option Val
  | [], _ => Option.none
  | (k, v) :: rest, key => if k = key then some v else dictGet rest key

/-- The keys of a dict in insertion order (`d.keys()`). -/
def dictKeys (d : PyDict) : List String := d.map (·.1)

/-- Python `{**d, k: v}` / `d[k] = v`: an existing key keeps its position
and gets the new value, a new key is appended at the end. -/
def dictInsert : PyDict → String → Val → PyDict
  | [], k, v => [(k, v)]
  | p :: rest, k, v => if p.1 = k then (k, v) :: rest else p :: dictInsert rest k v

theorem dictGet_dictInsert_self (d : PyDict) (k : String) (v : Val) :
    dictGet (dictInsert d k v) k = some v := by
  induction d with
  | nil => simp [dictInsert, dictGet]
  | cons p rest ih =>
    by_cases h : p.1 = k
    · simp [dictInsert, h, dictGet]
    · simp [dictInsert, h, dictGet, ih]

theorem dictGet_dictInsert_ne (d : PyDict) (k : String) (v : Val) (k' : String)
    (h : k' ≠ k) : dictGet (dictInsert d k v) k' = dictGet d k' := by
  have hne : ¬(k = k') := fun hh => h hh.symm
  induction d with
  | nil => simp [dictInsert, dictGet, hne]
  | cons p rest ih =>
    by_cases hp : p.1 = k
    · subst hp
      simp [dictInsert, dictGet, hne]
    · by_cases hp' : p.1 = k'
      · simp [dictInsert, hp, dictGet, hp', h]
      · simp [dictInsert, hp, dictGet, hp', ih]

/-- Exception kinds: the classes from `error.py` plus the built-in Python
exceptions the embedded code raises.  `RecordError`, `FieldError`,
`MissingFieldError` and `InvalidFieldError` derive from `error.Error`;
`AccessError` and the built-ins do not. -/
inductive ExcKind where
  | recordError (name : String) (info : String) : ExcKind
  | fieldError (name : String) (info : String) : ExcKind
  | missingFieldError (name : String) : ExcKind
  | invalidFieldError (name : String) (info : String) : ExcKind
  | accessError (arg : Option String) : ExcKind
  | attributeError (name : String) : ExcKind
  | keyError (key : String) : ExcKind
  | typeError (info : String) : ExcKind
  | valueError (info : String) : ExcKind
deriving DecidableEq, Repr

/-- A Python exception: its kind plus the `__cause__` link installed by
`raise ... from ...` (`base` has no cause, `chained` has one). -/
inductive Exc where
  | base (kind : ExcKind) : Exc
  | chained (kind : ExcKind) (cause : Exc) : Exc
deriving DecidableEq, Repr

instance : Inhabited Exc := ⟨.base (.valueError "")⟩

/-- The kind of an exception. -/
def Exc.kind : Exc → ExcKind
  | .base k => k
  | .chained k _ => k

/-- The `__cause__` of an exception. -/
def Exc.cause : Exc → Option Exc
  | .base _ => Option.none
  | .chained _ c => some c

/-- `raise e from c`: replace the cause of `e` with `c`. -/
def Exc.withCause : Exc → Exc → Exc
  | .base k, c => .chained k c
  | .chained k _, c => .chained k c

/-- `isinstance(e, error.Error)`. -/
def isFrameworkError (e : Exc) : Bool :=
  match e.kind with
  | .recordError _ _ => true
  | .fieldError _ _ => true
  | .missingFieldError _ => true
  | .invalidFieldError _ _ => true
  | _ => false

/-- `isinstance(e, error.FieldError)`: in the source only the `FieldError`
class itself qualifies; `MissingFieldError` and `InvalidFieldError` derive
directly from `Error`. -/
def isFieldError (e : Exc) : Bool :=
  match e.kind with
  | .fieldError _ _ => true
  | _ => false

/-- The exception together with every exception reachable through
`__cause__` links. -/
def causeChain : Exc → List Exc
  | .base k => [.base k]
  | .chained k c => .chained k c :: causeChain c

/-- Does the cause chain of `e` contain a `MissingFieldError` for `name`? -/
def chainHasMissingField (name : String) (e : Exc) : Bool :=
  (causeChain e).any fun e' =>
    match e'.kind with
    | .missingFieldError n => decide (n = name)
    | _ => false

/-- A rough `repr(e)` used where the source passes an exception to
`get_contract_info` (which falls back to `repr` for plain exceptions). -/
def excRepr (e : Exc) : String :=
  match e.kind with
  | .recordError n i => "RecordError(" ++ n ++ ", " ++ i ++ ")"
  | .fieldError n i => "FieldError(" ++ n ++ ", " ++ i ++ ")"
  | .missingFieldError n => "MissingFieldError(" ++ n ++ ")"
  | .invalidFieldError n i => "InvalidFieldError(" ++ n ++ ", " ++ i ++ ")"
  | .accessError _ => "AccessError"
  | .attributeError n => "AttributeError(" ++ n ++ ")"
  | .keyError k => "KeyError(" ++ k ++ ")"
  | .typeError i => "TypeError(" ++ i ++ ")"
  | .valueError i => "ValueError(" ++ i ++ ")"

/-- The operation algebra of `operation.py`, as a deep embedding.

`simpleConversion info f` covers `SimpleConversion` (and thereby the
guards built with `only_if`, `expect_type`, `should_be`, `not_empty`,
which are all `SimpleConversion`s over specific closures); `pipe` is
`Pipe` (`>>`), `orElse` is `Or` (`|`), and the remaining constructors are
the missing-value policies `_SkipMissing`, `_ProvideMissing` and
`_GenerateMissing`. -/
inductive Op where
  | simpleConversion (info : String) (f : Val → Except Exc Val) : Op
  | pipe (left right : Op) : Op
  | orElse (left right : Op) : Op
  | skipMissing : Op
  | provideMissing (defaultValue : Val) : Op
  | generateMissing (getDefaultValue : Unit → Val) : Op

/-- `UnaryOperation._convert_field`: apply the conversion callable;
re-raise framework errors (`error.Error`) unchanged and wrap any other
exception into `InvalidFieldError(field_name, ...) from err`. -/
def convertField (fieldName : String) (f : Val → Except Exc Val) (v : Val) :
    Except Exc Val :=
  match f v with
  | .ok r => .ok r
  | .error e =>
    if isFrameworkError e then .error e
    else .error (.chained (.invalidFieldError fieldName (excRepr e)) e)

/-- `Operation.prepare_field` for each variant, transliterated from
`operation.py`:

* `SimpleConversion.prepare_field`: look the field up, turning a `KeyError`
  into `MissingFieldError(field_name) from err`, then `_convert_field`.
* `Pipe.prepare_field`: run `left`; `None` short-circuits; otherwise run
  `right` on `{**values, field_name: left_res}`.
* `Or.prepare_field`: run `left`; on an exception run `right` on the
  original input and, if that also fails, `raise err_right from err_left`;
  if `left` returns `None`, run `right` on the original input.
* `_SkipMissing.prepare_field`: `values.get(name)` and
  `input_data or self._convert_field(...)` with an identity conversion.
* `_ProvideMissing` / `_GenerateMissing`: `_convert_field` applied to
  `values.get(name)` with a closure substituting the default for `None`. -/
def prepareField : Op → String → PyDict → Except Exc Val
  | .simpleConversion _ f, fieldName, values =>
    match dictGet values fieldName with
    | Option.none =>
      .error (.chained (.missingFieldError fieldName) (.base (.keyError fieldName)))
    | some inputData => convertField fieldName f inputData
  | .pipe left right, fieldName, values =>
    match prepareField left fieldName values with
    | .error e => .error e
    | .ok leftRes =>
      if leftRes = Val.none then .ok Val.none
      else prepareField right fieldName (dictInsert values fieldName leftRes)
  | .orElse left right, fieldName, values =>
    match prepareField left fieldName values with
    | .error errLeft =>
      match prepareField right fieldName values with
      | .ok v => .ok v
      | .error errRight => .error (errRight.withCause errLeft)
    | .ok res =>
      if res = Val.none then prepareField right fieldName values else .ok res
  | .skipMissing, fieldName, values =>
    let inputData := (dictGet values fieldName).getD Val.none
    if truthy inputData then .ok inputData
    else convertField fieldName (fun v => .ok v) inputData
  | .provideMissing d, fieldName, values =>
    convertField fieldName (fun v => .ok (if v = Val.none then d else v))
      ((dictGet values fieldName).getD Val.none)
  | .generateMissing g, fieldName, values =>
    convertField fieldName (fun v => .ok (if v = Val.none then g () else v))
      ((dictGet values fieldName).getD Val.none)

/-- `only_if(fn, info, err_cls)`: a `SimpleConversion` whose closure passes
the value through when the predicate holds and raises `err_cls` (with the
structured payload rendered to a string) otherwise. -/
def only_if (cond : Val → Bool) (info : String) (mkErr : String → ExcKind) : Op :=
  .simpleConversion ("accept only if " ++ info)
    (fun v =>
      if cond v then .ok v
      else .error (.base (mkErr ("Value does not match condition: " ++ info ++ "; value: " ++ reprVal v))))

/-- `expect_types(*expected_types)`: an isinstance predicate guard raising
`TypeError`. -/
def expect_types (ts : List PyType) : Op :=
  only_if (fun v => ts.any (isinstanceOf v))
    (match ts with
     | [t] => "has type " ++ typeName t
     | _ => "has one of the expected types")
    ExcKind.typeError

/-- `expect_type(expected_type)`. -/
def expect_type (t : PyType) : Op := expect_types [t]

/-- `should_be(expected)`: an identity guard (`v is expected`) used for Tag
discriminators; identity on Tag members coincides with structural
equality. -/
def should_be (expected : Val) : Op :=
  only_if (fun v => decide (v = expected)) ("value is " ++ reprVal expected ++ " constant")
    ExcKind.valueError

/-- `not_empty = only_if(bool, "not empty")`. -/
def not_empty : Op := only_if truthy "not empty" ExcKind.valueError

/-- Calling a non-callable constant (`obj(v)` for plain data) raises
`TypeError`: used by the default branch of `default_conversion`, which
wraps an arbitrary object in `SimpleConversion`. -/
def callVal (c : Val) : Val → Except Exc Val :=
  fun _ => .error (.base (.typeError (reprVal c ++ " object is not callable")))

/-- The argument domain of the `default_conversion` single-dispatch
function: an already-built `Operation`, a bare Python type, a `Tag` enum
member, or any other (non-callable) constant.  The `HooksFactory`
registration (which raises `ValueError`) is outside the claims and is not
modelled. -/
inductive DcArg where
  | op (o : Op) : DcArg
  | pyType (t : PyType) : DcArg
  | tagMember (tagType : String) (value : String) : DcArg
  | const (v : Val) : DcArg

/-- `default_conversion`, following the single-dispatch registrations in
`operation.py`: a `type` becomes `expect_type(obj)`, an `Operation` is
returned unchanged, a `Tag` member becomes `should_be(obj)`, and anything
else becomes `SimpleConversion(obj)` (which fails at call time for a
non-callable constant). -/
def default_conversion : DcArg → Op
  | .op o => o
  | .pyType t => expect_type t
  | .tagMember tt v => should_be (Val.tag tt v)
  | .const v => .simpleConversion (reprVal v) (callVal v)

/-- `CombineMixin.__rshift__`: `self >> fn = Pipe(self, default_conversion(fn))`. -/
def combinePipe (o : Op) (a : DcArg) : Op := .pipe o (default_conversion a)

/-- `CombineMixin.__or__`: `self | fn = Or(self, default_conversion(fn))`. -/
def combineOr (o : Op) (a : DcArg) : Op := .orElse o (default_conversion a)

/-- A value appearing in a record class namespace (`_split_record_namespace`
dispatches on it): an `Operation`, a `HooksFactory` (of which only the
wrapped operation matters for the field contract; the hook-routing part is
modelled by the hook lists carried directly on `RecordType`), or any other
object (a bare type, a `Tag` member, or a plain constant). -/
inductive NsVal where
  | op (o : Op) : NsVal
  | hooksF (operation : Option Op) : NsVal
  | pyType (t : PyType) : NsVal
  | tagMember (tagType : String) (value : String) : NsVal
  | const (v : Val) : NsVal

/-- Result of `_split_record_namespace`: the `(name, Operation)` pairs that
become fields and the remaining namespace entries (`other`). -/
structure SplitNs where
  fields : List (String × Op)
  other : List (String × NsVal)

/-- `_split_record_namespace`, transliterated from `record.py`: an
`Operation` value becomes a field; a `HooksFactory` contributes its wrapped
operation as a field when it has one; everything else goes to `other`. -/
def splitRecordNamespace : List (String × NsVal) → SplitNs
  | [] => ⟨[], []⟩
  | (k, v) :: rest =>
    let s := splitRecordNamespace rest
    match v with
    | .op o => ⟨(k, o) :: s.fields, s.other⟩
    | .hooksF (some o) => ⟨(k, o) :: s.fields, s.other⟩
    | .hooksF Option.none => ⟨s.fields, s.other⟩
    | other => ⟨s.fields, (k, other) :: s.other⟩

/-- A Python dict comprehension `{k: v for k, v in pairs}`: a repeated key
keeps its first position and takes the latest value. -/
def dictOfPairs (ps : List (String × Op)) : List (String × Op) :=
  ps.foldl (fun d p => insertPair d p.1 p.2) []
where
  insertPair : List (String × Op) → String → Op → List (String × Op)
    | [], k, v => [(k, v)]
    | q :: rest, k, v =>
      if q.1 = k then (k, v) :: rest else q :: insertPair rest k v

/-- The field-contract computation of `RecordMeta.__new__`: chain the
already-resolved contracts of the ancestors (most-base first) with the
fields declared in the namespace, collapsing duplicates dict-style (an
overriding declaration keeps the original position). -/
def recordContract (ancestors : List (List (String × Op)))
    (ns : List (String × NsVal)) : List (String × Op) :=
  dictOfPairs (ancestors.foldr (· ++ ·) [] ++ (splitRecordNamespace ns).fields)

/-- The mutable state of a record instance: the `_initialized` service slot,
the declared-field slots that have been set, and the `__dict__` used by
`ExtensibleRecord` for passthrough keys. -/
structure RecState where
  initialized : Val
  slots : PyDict
  dyn : PyDict
deriving DecidableEq, Repr, Inhabited

/-- An `Init`-phase hook: called on the instance, may return a
`(name, value)` pair to set (a falsy result sets nothing), may raise. -/
abbrev InitHook := RecState → Except Exc (Option (String × Val))

/-- A `PostInit`-phase hook: called on the sealed instance, result ignored,
raises to signal an invariant violation. -/
abbrev PostInitHook := RecState → Except Exc Val

/-- A record type as produced by `RecordMeta`: its name, its ordered field
contract (`_fields`), whether it derives from `ExtensibleRecord`, and its
hook lists (`_hook_init` / `_hook_post_init`). -/
structure RecordType where
  name : String
  fields : List (String × Op)
  extensible : Bool
  initHooks : List InitHook
  postInitHooks : List PostInitHook

/-- The declared field names of a record type, in contract order. -/
def fieldNames (rt : RecordType) : List String := rt.fields.map (·.1)

/-- `Record.__setattr__` / `ExtensibleRecord.__setattr__` followed by
`object.__setattr__`: a sealed instance (truthy `_initialized`) rejects any
name other than `_initialized` with `AccessError` (the `Record` variant
passes the name, the `ExtensibleRecord` variant passes no argument);
otherwise the value goes to the `_initialized` slot, a declared-field slot,
or (only for extensible records) the instance `__dict__`; a closed record
has no `__dict__`, so a non-slot name raises `AttributeError`. -/
def pySetattr (rt : RecordType) (r : RecState) (name : String) (v : Val) :
    Except Exc RecState :=
  if name ≠ "_initialized" ∧ truthy r.initialized then
    .error (.base (.accessError (if rt.extensible then Option.none else some name)))
  else if name = "_initialized" then .ok { r with initialized := v }
  else if (fieldNames rt).contains name then .ok { r with slots := dictInsert r.slots name v }
  else if rt.extensible then .ok { r with dyn := dictInsert r.dyn name v }
  else .error (.base (.attributeError name))

/-- Attribute lookup on an instance (`getattr`), as `None`-for-unset:
a declared field reads its slot, falling back to `RecordBase.__getattr__`
which returns `None` for a declared-but-unset field; any other name reads
the instance `__dict__`; a name found nowhere raises `AttributeError`,
modelled as `Option.none`. -/
def lookupAttr (rt : RecordType) (r : RecState) (name : String) : Option Val :=
  if (fieldNames rt).contains name then some ((dictGet r.slots name).getD Val.none)
  else dictGet r.dyn name

/-- `gen_names`: declared fields in contract order; an extensible record
then yields its `__dict__` keys in insertion order. -/
def genNames (rt : RecordType) (r : RecState) : List String :=
  if rt.extensible then fieldNames rt ++ dictKeys r.dyn else fieldNames rt

/-- `RecordBase.gen_fields`: `(name, value)` for each visible name whose
attribute lookup succeeds. -/
def genFields (rt : RecordType) (r : RecState) : List (String × Val) :=
  (genNames rt r).filterMap fun n => (lookupAttr rt r n).map ((n, ·))

/-- `RecordBase.gen_fields_from_input`: run each field's operation in
contract order; skip a `None` result; let a `FieldError` escape unchanged
and wrap any other exception as `InvalidFieldError(name, 'input') from err`. -/
def genFieldsFromInput (fields : List (String × Op)) (values : PyDict) :
    Except Exc (List (String × Val)) :=
  match fields with
  | [] => .ok []
  | (name, conversion) :: rest =>
    match prepareField conversion name values with
    | .ok res =>
      match genFieldsFromInput rest values with
      | .ok tail => .ok (if res = Val.none then tail else (name, res) :: tail)
      | .error e => .error e
    | .error e =>
      if isFieldError e then .error e
      else .error (.chained (.invalidFieldError name "input") e)

/-- The `setattr` loop shared by both `_initialize` methods. -/
def setFields (rt : RecordType) (r : RecState) :
    List (String × Val) → Except Exc RecState
  | [] => .ok r
  | (name, v) :: rest =>
    match pySetattr rt r name v with
    | .error e => .error e
    | .ok r' => setFields rt r' rest

/-- The passthrough loop of `ExtensibleRecord._initialize`:
`for k in other_keys: setattr(self, k, values[k])`.  The iteration order of
`other_keys` is supplied as the argument `ks` because the source computes
`values.keys() - self._fields.keys()`, a Python set whose iteration order
is unspecified (string hashing is randomized per process). -/
def setExtras (rt : RecordType) (r : RecState) (values : PyDict) :
    List String → Except Exc RecState
  | [] => .ok r
  | k :: ks =>
    match dictGet values k with
    | Option.none => .error (.base (.keyError k))
    | some v =>
      match pySetattr rt r k v with
      | .error e => .error e
      | .ok r' => setExtras rt r' values ks

/-- The extra input keys of an extensible construction:
`values.keys() - self._fields.keys()` as a list in input order; an
admissible iteration order is any permutation of this list. -/
def extraKeys (rt : RecordType) (values : PyDict) : List String :=
  (dictKeys values).filter fun k => !(fieldNames rt).contains k

/-- `Record._initialize`: set every converted field. -/
def initializeRecord (rt : RecordType) (r : RecState) (values : PyDict) :
    Except Exc RecState :=
  match genFieldsFromInput rt.fields values with
  | .error e => .error e
  | .ok pairs => setFields rt r pairs

/-- `ExtensibleRecord._initialize`: set every converted field, then copy
the extra input keys verbatim, iterating them in the supplied set order. -/
def initializeExtensible (rt : RecordType) (r : RecState) (values : PyDict)
    (extraOrder : List String) : Except Exc RecState :=
  match genFieldsFromInput rt.fields values with
  | .error e => .error e
  | .ok pairs =>
    match setFields rt r pairs with
    | .error e => .error e
    | .ok r' => setExtras rt r' values extraOrder

/-- The `Init`-hook loop of `RecordBase.__init__`: run each hook in order;
a truthy result `(name, value)` is written back with `setattr`. -/
def runInitHooks (rt : RecordType) (r : RecState) :
    List InitHook → Except Exc RecState
  | [] => .ok r
  | h :: hs =>
    match h r with
    | .error e => .error e
    | .ok Option.none => runInitHooks rt r hs
    | .ok (some (name, v)) =>
      match pySetattr rt r name v with
      | .error e => .error e
      | .ok r' => runInitHooks rt r' hs

/-- The `PostInit`-hook loop of `RecordBase.__init__`: run each hook in
order, ignoring results; the first exception escapes. -/
def runPostInitHooks (r : RecState) : List PostInitHook → Except Exc Unit
  | [] => .ok ()
  | h :: hs =>
    match h r with
    | .error e => .error e
    | .ok _ => runPostInitHooks r hs

/-- The guarded first phase of `RecordBase.__init__`: create the bare
instance, clear `_initialized`, run `_initialize`, run the `Init` hooks and
seal the instance.  Any exception here is wrapped by the caller into
`RecordError(cls_name, "init")`. -/
def constructPhaseA (rt : RecordType) (values : PyDict)
    (extraOrder : List String) : Except Exc RecState :=
  match pySetattr rt ⟨Val.none, [], []⟩ "_initialized" (Val.bool false) with
  | .error e => .error e
  | .ok r1 =>
    match (if rt.extensible then initializeExtensible rt r1 values extraOrder
           else initializeRecord rt r1 values) with
    | .error e => .error e
    | .ok r2 =>
      match runInitHooks rt r2 rt.initHooks with
      | .error e => .error e
      | .ok r3 => pySetattr rt r3 "_initialized" (Val.bool true)

/-- `RecordBase.__init__` on an already-merged input mapping: the first
phase is wrapped into `RecordError(name, "init") from err`; the sealed
instance then runs the `PostInit` hooks, any failure of which is wrapped
into `RecordError(name, "post-init") from err` — only then is the instance
returned. -/
def construct (rt : RecordType) (values : PyDict) (extraOrder : List String) :
    Except Exc RecState :=
  match constructPhaseA rt values extraOrder with
  | .error e => .error (.chained (.recordError rt.name "init") e)
  | .ok r =>
    match runPostInitHooks r rt.postInitHooks with
    | .error e => .error (.chained (.recordError rt.name "post-init") e)
    | .ok _ => .ok r

/-- Equality of two finite string sets given as lists
(`set(xs) == set(ys)`). -/
def keySetEq (xs ys : List String) : Bool :=
  xs.all ys.contains && ys.all xs.contains

/-- The same-concrete-type branch of `RecordBase.__eq__`:
`zip` the two field streams (truncating to the shorter one, as `zip` does)
and require every aligned pair of `(name, value)` tuples to compare
equal. -/
def recEqSame (rt : RecordType) (a b : RecState) : Bool :=
  ((genFields rt a).zip (genFields rt b)).all fun pq => decide (pq.1 = pq.2)

/-- The mapping branch of `RecordBase.__eq__`: the mapping's key set must
equal the set of visible names, and every visible field's value must equal
the mapping's value under the same key (`other.get(k, Ellipsis)`). -/
def recEqMap (rt : RecordType) (a : RecState) (m : PyDict) : Bool :=
  if keySetEq (genNames rt a) (dictKeys m) then
    (genFields rt a).all fun p =>
      match dictGet m p.1 with
      | Option.none => false
      | some b => decide (b = p.2)
  else false

/-! ## Shared concrete material for witnesses -/

/-- A concrete fallible conversion callable used by witnesses: halves even
ints, raises `ValueError` on odd ints and `TypeError` on anything else. -/
def halveConv : Val → Except Exc Val
  | .int n => if n % 2 = 0 then .ok (.int (n / 2)) else .error (.base (.valueError "odd"))
  | v => .error (.base (.typeError (reprVal v)))

/-- The identity conversion callable (`lambda v: v`). -/
def idConv : Val → Except Exc Val := fun v => .ok v

/-! ## C7 — SimpleConversion.prepare_field -/

/-- C7: for every conversion function `f`, field name and input mapping,
`SimpleConversion(f).prepare_field` raises `MissingFieldError` (caused by
the dict `KeyError`) when the field name is absent from the input; when the
field is present and `f` raises a non-framework exception it raises
`InvalidFieldError` carrying the field name with the original exception
preserved as its cause; and when `f` succeeds it returns `f`'s result. -/
theorem c7_simple_conversion (info : String) (f : Val → Except Exc Val)
    (name : String) (values : PyDict) :
    (dictGet values name = Option.none →
      prepareField (.simpleConversion info f) name values =
        .error (.chained (.missingFieldError name) (.base (.keyError name)))) ∧
    (∀ v e, dictGet values name = some v → f v = .error e →
      isFrameworkError e = false →
      prepareField (.simpleConversion info f) name values =
        .error (.chained (.invalidFieldError name (excRepr e)) e)) ∧
    (∀ v r, dictGet values name = some v → f v = .ok r →
      prepareField (.simpleConversion info f) name values = .ok r) := by
  refine ⟨fun h => ?_, fun v e hv hf hfw => ?_, fun v r hv hf => ?_⟩
  · simp [prepareField, h]
  · simp [prepareField, hv, convertField, hf, hfw]
  · simp [prepareField, hv, convertField, hf]

/-- Witness for C7, exercising all three hypotheses of the theorem at the
concrete conversion `halveConv`. -/
theorem c7_simple_conversion_witness :
    prepareField (.simpleConversion "halve" halveConv) "x" [] =
      .error (.chained (.missingFieldError "x") (.base (.keyError "x"))) ∧
    prepareField (.simpleConversion "halve" halveConv) "x" [("x", Val.int 3)] =
      .error (.chained (.invalidFieldError "x" "ValueError(odd)") (.base (.valueError "odd"))) ∧
    prepareField (.simpleConversion "halve" halveConv) "x" [("x", Val.int 4)] =
      .ok (Val.int 2) :=
  ⟨(c7_simple_conversion "halve" halveConv "x" []).1 rfl,
   (c7_simple_conversion "halve" halveConv "x" [("x", Val.int 3)]).2.1
     (Val.int 3) (.base (.valueError "odd")) rfl rfl rfl,
   (c7_simple_conversion "halve" halveConv "x" [("x", Val.int 4)]).2.2
     (Val.int 4) (Val.int 2) rfl rfl⟩

/-! ## C2 — Or.prepare_field -/

/-- C2: for every pair of operations, field name and input mapping,
`Or(left, right).prepare_field` evaluates `left` first; if `left` raises,
it returns `right.prepare_field` applied to the original unmodified input,
and if `right` also raises, the right failure is raised chained (via
`__cause__`) to the left failure; if `left` succeeds returning `None`,
`right` is evaluated against the original input as well; and if `left`
succeeds with a non-None value, that value is returned and `right` is never
evaluated (the result does not depend on `right`). -/
theorem c2_or_combinator (left right : Op) (name : String) (values : PyDict) :
    (∀ eL v, prepareField left name values = .error eL →
      prepareField right name values = .ok v →
      prepareField (.orElse left right) name values = .ok v) ∧
    (∀ eL eR, prepareField left name values = .error eL →
      prepareField right name values = .error eR →
      prepareField (.orElse left right) name values = .error (eR.withCause eL)) ∧
    (prepareField left name values = .ok Val.none →
      prepareField (.orElse left right) name values =
        prepareField right name values) ∧
    (∀ v, prepareField left name values = .ok v → v ≠ Val.none →
      prepareField (.orElse left right) name values = .ok v ∧
      ∀ right2, prepareField (.orElse left right2) name values = .ok v) := by
  refine ⟨fun eL v hL hR => ?_, fun eL eR hL hR => ?_, fun hL => ?_,
    fun v hL hv => ⟨?_, fun right2 => ?_⟩⟩
  · simp [prepareField, hL, hR]
  · simp [prepareField, hL, hR]
  · simp [prepareField, hL]
  · simp [prepareField, hL, hv]
  · simp [prepareField, hL, hv]

/-- Witness for C2: all four scenarios of the theorem at concrete
operations (failing left with succeeding right, both failing, left
returning None, left succeeding). -/
theorem c2_or_combinator_witness :
    prepareField (.orElse (.simpleConversion "halve" halveConv)
      (.simpleConversion "id" idConv)) "x" [("x", Val.int 3)] = .ok (Val.int 3) ∧
    prepareField (.orElse (.simpleConversion "halve" halveConv)
      (.simpleConversion "halve" halveConv)) "x" [("x", Val.int 3)] =
      .error ((Exc.chained (.invalidFieldError "x" "ValueError(odd)")
          (.base (.valueError "odd"))).withCause
        (.chained (.invalidFieldError "x" "ValueError(odd)") (.base (.valueError "odd")))) ∧
    prepareField (.orElse .skipMissing (.provideMissing (Val.int 9))) "x" [] =
      prepareField (.provideMissing (Val.int 9)) "x" [] ∧
    prepareField (.orElse (.simpleConversion "id" idConv)
      (.simpleConversion "halve" halveConv)) "x" [("x", Val.int 5)] = .ok (Val.int 5) :=
  ⟨(c2_or_combinator (.simpleConversion "halve" halveConv)
      (.simpleConversion "id" idConv) "x" [("x", Val.int 3)]).1
      (.chained (.invalidFieldError "x" "ValueError(odd)") (.base (.valueError "odd")))
      (Val.int 3) rfl rfl,
   (c2_or_combinator (.simpleConversion "halve" halveConv)
      (.simpleConversion "halve" halveConv) "x" [("x", Val.int 3)]).2.1
      (.chained (.invalidFieldError "x" "ValueError(odd)") (.base (.valueError "odd")))
      (.chained (.invalidFieldError "x" "ValueError(odd)") (.base (.valueError "odd")))
      rfl rfl,
   (c2_or_combinator .skipMissing (.provideMissing (Val.int 9)) "x" []).2.2.1 rfl,
   ((c2_or_combinator (.simpleConversion "id" idConv)
      (.simpleConversion "halve" halveConv) "x" [("x", Val.int 5)]).2.2.2
      (Val.int 5) rfl (by decide)).1⟩

/-! ## C6 — Pipe.prepare_field -/

/-- C6: for every pair of operations, field name and input mapping,
`Pipe(left, right).prepare_field` returns `None` when `left` returns `None`
without evaluating `right` (the result does not depend on `right`);
otherwise it returns `right.prepare_field` applied to the input augmented
so that the field name maps to `left`'s result, all other keys
unchanged. -/
theorem c6_pipe_combinator (left right : Op) (name : String) (values : PyDict) :
    (prepareField left name values = .ok Val.none →
      prepareField (.pipe left right) name values = .ok Val.none ∧
      ∀ right2, prepareField (.pipe left right2) name values = .ok Val.none) ∧
    (∀ v, prepareField left name values = .ok v → v ≠ Val.none →
      prepareField (.pipe left right) name values =
        prepareField right name (dictInsert values name v) ∧
      dictGet (dictInsert values name v) name = some v ∧
      ∀ k, k ≠ name → dictGet (dictInsert values name v) k = dictGet values k) := by
  refine ⟨fun hL => ⟨?_, fun right2 => ?_⟩,
    fun v hL hv => ⟨?_, dictGet_dictInsert_self values name v,
      fun k hk => dictGet_dictInsert_ne values name v k hk⟩⟩
  · simp [prepareField, hL]
  · simp [prepareField, hL]
  · simp [prepareField, hL, hv]

/-- Witness for C6: both scenarios of the theorem at concrete operations
(left yielding None via `skip_missing`, and a pipeline `halve then halve`
on a present field). -/
theorem c6_pipe_combinator_witness :
    prepareField (.pipe .skipMissing (.simpleConversion "halve" halveConv)) "x" [] =
      .ok Val.none ∧
    prepareField (.pipe (.simpleConversion "halve" halveConv)
      (.simpleConversion "halve" halveConv)) "x" [("x", Val.int 8), ("y", Val.int 1)] =
      prepareField (.simpleConversion "halve" halveConv) "x"
        [("x", Val.int 4), ("y", Val.int 1)] ∧
    dictGet [("x", Val.int 4), ("y", Val.int 1)] "y" = dictGet [("x", Val.int 8), ("y", Val.int 1)] "y" :=
  ⟨(c6_pipe_combinator .skipMissing (.simpleConversion "halve" halveConv) "x" []).1 rfl |>.1,
   (c6_pipe_combinator (.simpleConversion "halve" halveConv)
      (.simpleConversion "halve" halveConv) "x" [("x", Val.int 8), ("y", Val.int 1)]).2
      (Val.int 4) rfl (by decide) |>.1,
   ((c6_pipe_combinator (.simpleConversion "halve" halveConv)
      (.simpleConversion "halve" halveConv) "x" [("x", Val.int 8), ("y", Val.int 1)]).2
      (Val.int 4) rfl (by decide) |>.2.2) "y" (by decide)⟩

/-! ## C4 — auto-promotion of bare types and constants -/

/-- Is the operation a `SimpleConversion` (and not a combinator or a
missing-value policy)?  Used to phrase C1's all-required-contract side
condition and C4's field classification. -/
def isSimpleConversion : Op → Bool
  | .simpleConversion _ _ => true
  | _ => false

/-- The fields `_split_record_namespace` extracts, re-expressed the way the
spec describes field collection: exactly the namespace entries that already
are Operations (directly or wrapped in a `HooksFactory`). -/
def nsOperationFields (ns : List (String × NsVal)) : List (String × Op) :=
  ns.filterMap fun p =>
    match p.2 with
    | .op o => some (p.1, o)
    | .hooksF (some o) => some (p.1, o)
    | _ => Option.none

/-- C4 is false as stated: a record type defined with a bare type as a
field's value does not get a type-guard Operation in its contract — the
bare type is not an `Operation`, so `_split_record_namespace` routes it to
the plain class-attribute namespace and `get_contract()` has no entry for
that name at all (the resulting contract here is empty). -/
theorem c4_counterexample :
    recordContract [] [("id", NsVal.pyType PyType.intT)] = [] ∧
    (splitRecordNamespace [("id", NsVal.pyType PyType.intT)]).fields = [] ∧
    (splitRecordNamespace [("id", NsVal.pyType PyType.intT)]).other =
      [("id", NsVal.pyType PyType.intT)] :=
  ⟨rfl, rfl, rfl⟩

/-- C4 amended: in a record declaration only values that already are
Operations (directly, or wrapped in a `HooksFactory`) become contract
fields; a bare type or bare constant is kept out of the contract as a plain
class attribute.  The auto-promotion performed by `default_conversion` —
a bare type to an isinstance type guard, a `Tag` constant to an
identity-equality guard, any other non-callable constant to a
`SimpleConversion` that fails when invoked — applies only where
`default_conversion` is called, i.e. to the right operand of the `>>` and
`|` combinators. -/
theorem c4_amended :
    (∀ ns : List (String × NsVal), (splitRecordNamespace ns).fields = nsOperationFields ns) ∧
    (∀ t, default_conversion (.pyType t) = expect_type t) ∧
    (∀ tt v, default_conversion (.tagMember tt v) = should_be (Val.tag tt v)) ∧
    (∀ c, default_conversion (.const c) = .simpleConversion (reprVal c) (callVal c)) ∧
    (∀ o t, combinePipe o (.pyType t) = .pipe o (expect_type t)) ∧
    (∀ o t, combineOr o (.pyType t) = .orElse o (expect_type t)) ∧
    (∀ o tt v, combineOr o (.tagMember tt v) = .orElse o (should_be (Val.tag tt v))) := by
  refine ⟨fun ns => ?_, fun t => rfl, fun tt v => rfl, fun c => rfl,
    fun o t => rfl, fun o t => rfl, fun o tt v => rfl⟩
  induction ns with
  | nil => rfl
  | cons p rest ih =>
    obtain ⟨k, v⟩ := p
    simp only [nsOperationFields] at ih
    match v with
    | .op o => simp [splitRecordNamespace, nsOperationFields, List.filterMap_cons, ih]
    | .hooksF (some o) => simp [splitRecordNamespace, nsOperationFields, List.filterMap_cons, ih]
    | .hooksF Option.none => simp [splitRecordNamespace, nsOperationFields, List.filterMap_cons, ih]
    | .pyType t => simp [splitRecordNamespace, nsOperationFields, List.filterMap_cons, ih]
    | .tagMember tt vv => simp [splitRecordNamespace, nsOperationFields, List.filterMap_cons, ih]
    | .const c => simp [splitRecordNamespace, nsOperationFields, List.filterMap_cons, ih]

/-! ## Construction helper lemmas -/

/-- Setting `_initialized` always succeeds, sealed or not: the guard in
both `__setattr__` overrides short-circuits on that name. -/
theorem pySetattr_initialized (rt : RecordType) (r : RecState) (v : Val) :
    pySetattr rt r "_initialized" v = .ok { r with initialized := v } := by
  simp [pySetattr]

/-- A successful first construction phase ends with the seal set: the last
statement of the guarded block is `self._initialized = True`. -/
theorem phaseA_initialized (rt : RecordType) (values : PyDict)
    (extraOrder : List String) (r : RecState)
    (h : constructPhaseA rt values extraOrder = .ok r) :
    r.initialized = Val.bool true := by
  unfold constructPhaseA at h
  split at h
  · cases h
  · split at h
    · cases h
    · split at h
      · cases h
      · rw [pySetattr_initialized] at h
        cases h
        rfl

/-- A successful construction returns exactly the instance produced by the
first phase (the `PostInit` hooks only observe it). -/
theorem construct_ok_phaseA (rt : RecordType) (values : PyDict)
    (extraOrder : List String) (r : RecState)
    (h : construct rt values extraOrder = .ok r) :
    constructPhaseA rt values extraOrder = .ok r := by
  unfold construct at h
  split at h
  · cases h
  · rename_i r' heq
    split at h
    · cases h
    · cases h
      exact heq

/-! ## C3 — sealed-instance immutability -/

/-- C3: for every successfully constructed record instance (closed or
extensible) and every declared field name, assigning a value to that field
afterwards raises `AccessError` (so the assignment produces no updated
instance and the fields are unchanged by the attempt).  The side condition
that no declared field is called `_initialized` holds for every record type
the metaclass can actually create (a duplicate slot name would abort class
creation). -/
theorem c3_sealed_immutability (rt : RecordType) (values : PyDict)
    (extraOrder : List String) (r : RecState) (name : String) (v : Val)
    (hwf : (fieldNames rt).contains "_initialized" = false)
    (hname : (fieldNames rt).contains name = true)
    (hc : construct rt values extraOrder = .ok r) :
    pySetattr rt r name v =
      .error (.base (.accessError (if rt.extensible then Option.none else some name))) := by
  have hinit : r.initialized = Val.bool true :=
    phaseA_initialized rt values extraOrder r (construct_ok_phaseA rt values extraOrder r hc)
  have hne : name ≠ "_initialized" := by
    intro hh
    rw [hh, hwf] at hname
    cases hname
  simp [pySetattr, hne, hinit, truthy]

/-- A closed record type with one declared field, used as the concrete
instance for the C3 and C10 witnesses. -/
def oneFieldType : RecordType :=
  ⟨"P", [("id", Op.simpleConversion "id" idConv)], false, [], []⟩

/-- The sealed instance `oneFieldType({"id": 1})` produces. -/
def oneFieldInst : RecState := ⟨Val.bool true, [("id", Val.int 1)], []⟩

/-- Witness for C3 at a concretely constructed sealed instance. -/
theorem c3_sealed_immutability_witness :
    pySetattr oneFieldType oneFieldInst "id" (Val.int 2) =
      .error (.base (.accessError (some "id"))) := by
  have h := c3_sealed_immutability oneFieldType [("id", Val.int 1)] [] oneFieldInst
    "id" (Val.int 2) rfl rfl rfl
  simpa using h

/-! ## C10 — the `_initialized` escape hatch -/

/-- C10: the immutability guard exempts the attribute name `_initialized`:
on a sealed instance, assigning to `_initialized` does not raise
`AccessError` (it simply overwrites the seal slot), and assigning any falsy
value to it re-enables subsequent field assignment on that instance. -/
theorem c10_initialized_exemption (rt : RecordType) (r : RecState)
    (name : String) (v w : Val)
    (hseal : truthy r.initialized = true)
    (hwf : (fieldNames rt).contains "_initialized" = false)
    (hname : (fieldNames rt).contains name = true)
    (hfalsy : truthy w = false) :
    pySetattr rt r "_initialized" w = .ok { r with initialized := w } ∧
    pySetattr rt { r with initialized := w } name v =
      .ok { r with initialized := w, slots := dictInsert r.slots name v } := by
  refine ⟨pySetattr_initialized rt r w, ?_⟩
  have hne : name ≠ "_initialized" := by
    intro hh
    rw [hh, hwf] at hname
    cases hname
  have hmem : name ∈ fieldNames rt := by simpa using hname
  simp [pySetattr, hne, hfalsy, hname, hmem]

/-- Witness for C10: unsealing the sealed instance of `oneFieldType` with
`_initialized = False` and then reassigning the declared field succeeds. -/
theorem c10_initialized_exemption_witness :
    pySetattr oneFieldType oneFieldInst "_initialized" (Val.bool false) =
      .ok { oneFieldInst with initialized := Val.bool false } ∧
    pySetattr oneFieldType { oneFieldInst with initialized := Val.bool false }
      "id" (Val.int 2) =
      .ok { oneFieldInst with initialized := Val.bool false, slots := dictInsert oneFieldInst.slots "id" (Val.int 2) } :=
  c10_initialized_exemption oneFieldType oneFieldInst "id" (Val.int 2)
    (Val.bool false) rfl rfl rfl rfl

/-! ## C5 — PostInit hook failures abort construction -/

/-- C5: if the construction phases up to sealing succeed and a `PostInit`
hook then raises, the constructor raises `RecordError` tagged "post-init"
with the hook's error as its direct cause, and the caller never receives
the instance — even though all fields had been set and the instance had
already been sealed (`_initialized` is `True` on the discarded
instance). -/
theorem c5_postinit_failure (rt : RecordType) (values : PyDict)
    (extraOrder : List String) (r : RecState) (e : Exc)
    (hA : constructPhaseA rt values extraOrder = .ok r)
    (hB : runPostInitHooks r rt.postInitHooks = .error e) :
    construct rt values extraOrder =
      .error (.chained (.recordError rt.name "post-init") e) ∧
    r.initialized = Val.bool true := by
  refine ⟨?_, phaseA_initialized rt values extraOrder r hA⟩
  simp [construct, hA, hB]

/-- A record type whose single `PostInit` invariant always raises. -/
def failingHookType : RecordType :=
  ⟨"H", [("id", Op.simpleConversion "id" idConv)], false, [],
    [fun _ => .error (.base (.valueError "invariant failed"))]⟩

/-- Witness for C5: constructing `failingHookType` with a valid field fails
with a "post-init" `RecordError` caused by the hook's `ValueError`. -/
theorem c5_postinit_failure_witness :
    construct failingHookType [("id", Val.int 1)] [] =
      .error (.chained (.recordError "H" "post-init")
        (.base (.valueError "invariant failed"))) ∧
    (⟨Val.bool true, [("id", Val.int 1)], []⟩ : RecState).initialized = Val.bool true :=
  c5_postinit_failure failingHookType [("id", Val.int 1)] []
    ⟨Val.bool true, [("id", Val.int 1)], []⟩
    (.base (.valueError "invariant failed")) rfl rfl

/-! ## C1 — missing required fields -/

/-- Running the contract against an input in which every field before a
given `SimpleConversion` field prepares successfully and that field's name
is absent produces the wrapped missing-field failure: the inner
`MissingFieldError` (caused by the dict `KeyError`) is re-wrapped by
`gen_fields_from_input` as `InvalidFieldError(name, 'input')` because
`MissingFieldError` does not derive from `FieldError`. -/
theorem genFieldsFromInput_missing (pre : List (String × Op)) (name info : String)
    (f : Val → Except Exc Val) (rest : List (String × Op)) (values : PyDict)
    (hpre : ∀ p ∈ pre, ∃ v, prepareField p.2 p.1 values = .ok v)
    (hmiss : dictGet values name = Option.none) :
    genFieldsFromInput (pre ++ (name, .simpleConversion info f) :: rest) values =
      .error (.chained (.invalidFieldError name "input")
        (.chained (.missingFieldError name) (.base (.keyError name)))) := by
  induction pre with
  | nil =>
    simp [genFieldsFromInput, prepareField, hmiss, isFieldError, Exc.kind]
  | cons p ps ih =>
    obtain ⟨k, op⟩ := p
    obtain ⟨v, hv⟩ := hpre (k, op) (List.mem_cons_self _ _)
    have hrest := ih fun q hq => hpre q (List.mem_cons_of_mem _ hq)
    simp [genFieldsFromInput, hv, hrest]

/-- C1 amended: for a record type whose contract consists only of required
`SimpleConversion`-style operations, constructing from an input mapping
that lacks a declared field — where every field preceding it in contract
order prepares successfully — raises a `RecordError` whose cause chain
contains a `MissingFieldError` for that field (nested under an
`InvalidFieldError` tagged "input"), and no instance is returned. -/
theorem c1_missing_field (rt : RecordType) (values : PyDict)
    (extraOrder : List String) (pre : List (String × Op)) (name info : String)
    (f : Val → Except Exc Val) (rest : List (String × Op))
    (hsimple : (rt.fields.all fun p => isSimpleConversion p.2) = true)
    (hfields : rt.fields = pre ++ (name, .simpleConversion info f) :: rest)
    (hpre : ∀ p ∈ pre, ∃ v, prepareField p.2 p.1 values = .ok v)
    (hmiss : dictGet values name = Option.none) :
    construct rt values extraOrder =
      .error (.chained (.recordError rt.name "init")
        (.chained (.invalidFieldError name "input")
          (.chained (.missingFieldError name) (.base (.keyError name))))) ∧
    chainHasMissingField name
      (.chained (.recordError rt.name "init")
        (.chained (.invalidFieldError name "input")
          (.chained (.missingFieldError name) (.base (.keyError name))))) = true := by
  have hg := genFieldsFromInput_missing pre name info f rest values hpre hmiss
  constructor
  · have hset := pySetattr_initialized rt ⟨Val.none, [], []⟩ (Val.bool false)
    by_cases hext : rt.extensible
    · simp [construct, constructPhaseA, hset, hext, initializeExtensible, hfields, hg]
    · simp [construct, constructPhaseA, hset, hext, initializeRecord, hfields, hg]
  · simp [chainHasMissingField, causeChain, Exc.kind, List.any]

/-- A two-field all-required record type for the C1 witness. -/
def twoFieldType : RecordType :=
  ⟨"R2", [("a", Op.simpleConversion "id" idConv), ("b", Op.simpleConversion "id" idConv)],
    false, [], []⟩

/-- Witness for C1 (amended): constructing `twoFieldType` with only `a`
present fails with a `RecordError` whose chain holds `MissingFieldError`
for `b`. -/
theorem c1_missing_field_witness :
    construct twoFieldType [("a", Val.int 1)] [] =
      .error (.chained (.recordError "R2" "init")
        (.chained (.invalidFieldError "b" "input")
          (.chained (.missingFieldError "b") (.base (.keyError "b"))))) ∧
    chainHasMissingField "b"
      (.chained (.recordError "R2" "init")
        (.chained (.invalidFieldError "b" "input")
          (.chained (.missingFieldError "b") (.base (.keyError "b"))))) = true := by
  have h := c1_missing_field twoFieldType [("a", Val.int 1)] []
    [("a", Op.simpleConversion "id" idConv)] "b" "id" idConv [] rfl rfl
    (fun p hp => by
      rw [List.mem_singleton] at hp
      subst hp
      exact ⟨Val.int 1, rfl⟩)
    rfl
  exact h

/-- The concrete record type refuting C1 as universally stated: both fields
are required `SimpleConversion`s, but on the failing input the first field
is present and fails its conversion before the missing second field is ever
reached. -/
def c1BadType : RecordType :=
  ⟨"R", [("a", Op.simpleConversion "halve" halveConv), ("b", Op.simpleConversion "id" idConv)],
    false, [], []⟩

/-- C1 is false as universally stated: constructing `c1BadType` from
`{"a": 3}` — an input that lacks the declared field `b` — raises a
`RecordError` whose cause chain contains no `MissingFieldError` for `b` at
all (the chain reports only the invalid conversion of `a`), although the
contract consists solely of required `SimpleConversion` operations. -/
theorem c1_counterexample :
    (c1BadType.fields.all fun p => isSimpleConversion p.2) = true ∧
    dictGet [("a", Val.int 3)] "b" = Option.none ∧
    construct c1BadType [("a", Val.int 3)] [] =
      .error (.chained (.recordError "R" "init")
        (.chained (.invalidFieldError "a" "input")
          (.chained (.invalidFieldError "a" "ValueError(odd)")
            (.base (.valueError "odd"))))) ∧
    chainHasMissingField "b"
      (.chained (.recordError "R" "init")
        (.chained (.invalidFieldError "a" "input")
          (.chained (.invalidFieldError "a" "ValueError(odd)")
            (.base (.valueError "odd"))))) = false :=
  ⟨rfl, rfl, rfl, rfl⟩

/-! ## C8 — instance equality -/

/-- On a closed record type every declared name resolves (an unset slot
reads as `None` through `__getattr__`), so the visible field stream is just
the contract names paired with their slot values. -/
theorem genFields_closed (rt : RecordType) (r : RecState)
    (hext : rt.extensible = false) :
    genFields rt r =
      (fieldNames rt).map fun n => (n, (dictGet r.slots n).getD Val.none) := by
  have haux : ∀ xs : List String, (∀ n ∈ xs, n ∈ fieldNames rt) →
      (xs.filterMap fun n => (lookupAttr rt r n).map ((n, ·))) =
        xs.map fun n => (n, (dictGet r.slots n).getD Val.none) := by
    intro xs
    induction xs with
    | nil => intro _; rfl
    | cons n ns ih =>
      intro hmem
      have hn : n ∈ fieldNames rt := hmem n (List.mem_cons_self _ _)
      have hla : Option.map (fun x => (n, x)) (lookupAttr rt r n) =
          some (n, (dictGet r.slots n).getD Val.none) := by
        simp [lookupAttr, hn]
      simp only [List.filterMap_cons, hla, List.map_cons]
      exact congrArg _ (ih fun m hm => hmem m (List.mem_cons_of_mem _ hm))
  simp only [genFields, genNames, hext, Bool.false_eq_true, if_false]
  exact haux (fieldNames rt) fun n hn => hn

/-- Pointwise equality of zipped lists of equal length is list equality. -/
theorem zip_all_decide_eq {α : Type} [DecidableEq α] (xs ys : List α)
    (hlen : xs.length = ys.length) :
    (((xs.zip ys).all fun pq => decide (pq.1 = pq.2)) = true) ↔ xs = ys := by
  induction xs generalizing ys with
  | nil =>
    cases ys with
    | nil => simp
    | cons y ys => cases hlen
  | cons x xs ih =>
    cases ys with
    | nil => cases hlen
    | cons y ys =>
      have hlen' : xs.length = ys.length := by
        simpa using hlen
      simp [List.zip_cons_cons, ih ys hlen', and_comm]

/-- C8 amended: for a closed record type, two instances compare equal iff
their visible field streams agree pointwise in declaration order (for
extensible records the `zip` in `__eq__` silently truncates to the shorter
stream, see the counterexample); and any record instance compares equal to
a plain mapping iff the mapping's key set exactly matches the record's
visible field names and every corresponding value compares equal. -/
theorem c8_equality (rt : RecordType) (a b : RecState) (m : PyDict) :
    (rt.extensible = false →
      (recEqSame rt a b = true ↔ genFields rt a = genFields rt b)) ∧
    (recEqMap rt a m = true ↔
      (keySetEq (genNames rt a) (dictKeys m) = true ∧
        ∀ p ∈ genFields rt a, dictGet m p.1 = some p.2)) := by
  constructor
  · intro hext
    have hlen : (genFields rt a).length = (genFields rt b).length := by
      rw [genFields_closed rt a hext, genFields_closed rt b hext]
      simp
    exact zip_all_decide_eq _ _ hlen
  · unfold recEqMap
    by_cases hk : keySetEq (genNames rt a) (dictKeys m) = true
    · rw [if_pos hk]
      simp only [hk, true_and, List.all_eq_true]
      constructor
      · intro hall p hp
        have hthis := hall p hp
        revert hthis
        cases hg : dictGet m p.1 with
        | none =>
          intro hthis
          simp at hthis
        | some bv =>
          intro hthis
          simp only [decide_eq_true_eq] at hthis
          rw [hthis]
      · intro hall p hp
        rw [hall p hp]
        simp
    · rw [if_neg hk]
      simp [hk]

/-- Witness for C8 (amended): a closed one-field record equals itself and
equals the mapping holding exactly its field. -/
theorem c8_equality_witness :
    recEqSame oneFieldType oneFieldInst oneFieldInst = true ∧
    recEqMap oneFieldType oneFieldInst [("id", Val.int 1)] = true :=
  ⟨((c8_equality oneFieldType oneFieldInst oneFieldInst [("id", Val.int 1)]).1
      rfl).mpr rfl,
   ((c8_equality oneFieldType oneFieldInst oneFieldInst [("id", Val.int 1)]).2).mpr
     ⟨rfl, by decide⟩⟩

/-- An extensible one-field record type used by the C8 and C9
counterexamples. -/
def extOneFieldType : RecordType :=
  ⟨"W", [("a", Op.simpleConversion "id" idConv)], true, [], []⟩

/-- The instance `extOneFieldType` builds from `{"a": 1, "d": 5}`. -/
def extInstX : RecState := ⟨Val.bool true, [("a", Val.int 1)], [("d", Val.int 5)]⟩

/-- The instance `extOneFieldType` builds from `{"a": 1}`. -/
def extInstY : RecState := ⟨Val.bool true, [("a", Val.int 1)], []⟩

/-- C8 is false as stated for extensible records: two constructed instances
of the same concrete type, one of which carries an extra passthrough field
the other lacks, are reported equal by `__eq__` (whose `zip` truncates the
field streams) even though their visible fields differ — so "equal iff all
fields compare equal in declaration order" fails. -/
theorem c8_counterexample :
    construct extOneFieldType [("a", Val.int 1), ("d", Val.int 5)] ["d"] =
      .ok extInstX ∧
    construct extOneFieldType [("a", Val.int 1)] [] = .ok extInstY ∧
    recEqSame extOneFieldType extInstX extInstY = true ∧
    genFields extOneFieldType extInstX ≠ genFields extOneFieldType extInstY :=
  ⟨rfl, rfl, rfl, by decide⟩

/-! ## C9 — iteration order -/

theorem dictGet_append_of_none (d1 d2 : PyDict) (k : String)
    (h : dictGet d1 k = Option.none) : dictGet (d1 ++ d2) k = dictGet d2 k := by
  induction d1 with
  | nil => rfl
  | cons p rest ih =>
    by_cases hp : p.1 = k
    · simp [dictGet, hp] at h
    · simp only [List.cons_append, dictGet, if_neg hp]
      exact ih (by simpa [dictGet, hp] using h)

theorem dictInsert_eq_append (d : PyDict) (k : String) (v : Val)
    (h : dictGet d k = Option.none) : dictInsert d k v = d ++ [(k, v)] := by
  induction d with
  | nil => rfl
  | cons p rest ih =>
    by_cases hp : p.1 = k
    · simp [dictGet, hp] at h
    · simp only [dictInsert, if_neg hp, List.cons_append]
      exact congrArg _ (ih (by simpa [dictGet, hp] using h))

theorem dictGet_isSome_of_mem_keys (d : PyDict) (k : String)
    (h : k ∈ dictKeys d) : ∃ v, dictGet d k = some v := by
  induction d with
  | nil => cases h
  | cons p rest ih =>
    by_cases hp : p.1 = k
    · exact ⟨p.2, by simp [dictGet, hp]⟩
    · have hmem : k ∈ dictKeys rest := by
        simp only [dictKeys, List.map_cons, List.mem_cons] at h
        rcases h with h1 | h2
        · exact absurd h1.symm hp
        · simpa [dictKeys] using h2
      obtain ⟨v, hv⟩ := ih hmem
      exact ⟨v, by simp [dictGet, hp, hv]⟩

theorem mem_extraKeys (rt : RecordType) (values : PyDict) (k : String) :
    k ∈ extraKeys rt values ↔ k ∈ dictKeys values ∧ k ∉ fieldNames rt := by
  simp [extraKeys, List.mem_filter]

/-- Every pair `gen_fields_from_input` yields is named after a contract
field. -/
theorem genFieldsFromInput_names (fields : List (String × Op)) (values : PyDict) :
    ∀ pairs : List (String × Val),
      genFieldsFromInput fields values = .ok pairs →
      ∀ p ∈ pairs, p.1 ∈ fields.map (·.1) := by
  induction fields with
  | nil =>
    intro pairs h p hp
    cases h
    cases hp
  | cons q qs ih =>
    obtain ⟨name, conv⟩ := q
    intro pairs h
    simp only [genFieldsFromInput] at h
    split at h
    · rename_i res hpf
      split at h
      · rename_i tail hrec
        have htail := ih tail hrec
        split at h
        · cases h
          intro p hp
          simp only [List.map_cons]
          exact List.mem_cons_of_mem _ (htail p hp)
        · cases h
          intro p hp
          rcases List.mem_cons.mp hp with h1 | h2
          · subst h1
            simp
          · simp only [List.map_cons]
            exact List.mem_cons_of_mem _ (htail p h2)
      · cases h
    · split at h <;> cases h

/-- Setting declared fields on an unsealed instance touches only the
slots: the `__dict__` and the seal flag are unchanged. -/
theorem setFields_preserves (rt : RecordType) (pairs : List (String × Val))
    (hwf : (fieldNames rt).contains "_initialized" = false) :
    ∀ r r' : RecState,
      (∀ p ∈ pairs, p.1 ∈ fieldNames rt) →
      truthy r.initialized = false →
      setFields rt r pairs = .ok r' →
      r'.dyn = r.dyn ∧ r'.initialized = r.initialized := by
  induction pairs with
  | nil =>
    intro r r' _ _ h
    cases h
    exact ⟨rfl, rfl⟩
  | cons p ps ih =>
    obtain ⟨name, v⟩ := p
    intro r r' hpairs hinit h
    have hmem : name ∈ fieldNames rt := hpairs (name, v) (List.mem_cons_self _ _)
    have hne : name ≠ "_initialized" := by
      intro hh
      rw [hh] at hmem
      have hc : (fieldNames rt).contains "_initialized" = true := by simpa using hmem
      rw [hwf] at hc
      cases hc
    have hset : pySetattr rt r name v =
        .ok { r with slots := dictInsert r.slots name v } := by
      simp [pySetattr, hne, hinit, hmem]
    simp only [setFields, hset] at h
    exact ih { r with slots := dictInsert r.slots name v }
      r' (fun q hq => hpairs q (List.mem_cons_of_mem _ hq)) hinit h

/-- The passthrough loop of an extensible record appends the supplied keys
to the `__dict__` in exactly the order it iterates them. -/
theorem setExtras_dyn (rt : RecordType) (values : PyDict)
    (hext : rt.extensible = true) :
    ∀ (ks : List String) (r r' : RecState),
      (∀ k ∈ ks, k ∉ fieldNames rt ∧ k ≠ "_initialized") →
      ks.Nodup →
      truthy r.initialized = false →
      (∀ k ∈ ks, dictGet r.dyn k = Option.none) →
      setExtras rt r values ks = .ok r' →
      r'.dyn = r.dyn ++ ks.map (fun k => (k, (dictGet values k).getD Val.none)) ∧
        r'.initialized = r.initialized := by
  intro ks
  induction ks with
  | nil =>
    intro r r' _ _ _ _ h
    cases h
    simp
  | cons k ks ih =>
    intro r r' hks hnodup hinit hfresh h
    obtain ⟨hknf, hkne⟩ := hks k (List.mem_cons_self _ _)
    cases hv : dictGet values k with
    | none =>
      simp only [setExtras, hv] at h
      cases h
    | some v =>
      have hset : pySetattr rt r k v = .ok { r with dyn := dictInsert r.dyn k v } := by
        simp [pySetattr, hkne, hinit, hknf, hext]
      simp only [setExtras, hv, hset] at h
      have hfreshk : dictGet r.dyn k = Option.none := hfresh k (List.mem_cons_self _ _)
      have hdins : dictInsert r.dyn k v = r.dyn ++ [(k, v)] :=
        dictInsert_eq_append _ _ _ hfreshk
      have hknotin : k ∉ ks := (List.nodup_cons.mp hnodup).1
      have hndk : ks.Nodup := (List.nodup_cons.mp hnodup).2
      have hfresh' : ∀ k2 ∈ ks, dictGet (dictInsert r.dyn k v) k2 = Option.none := by
        intro k2 hk2
        rw [hdins, dictGet_append_of_none _ _ _ (hfresh k2 (List.mem_cons_of_mem _ hk2))]
        have hne2 : k2 ≠ k := fun hh => hknotin (hh ▸ hk2)
        have hne2' : ¬k = k2 := fun hh => hne2 hh.symm
        simp [dictGet, hne2']
      obtain ⟨h1, h2⟩ := ih { r with dyn := dictInsert r.dyn k v } r'
        (fun q hq => hks q (List.mem_cons_of_mem _ hq)) hndk hinit hfresh' h
      refine ⟨?_, h2⟩
      rw [h1]
      show dictInsert r.dyn k v ++ _ = _
      rw [hdins, List.map_cons, List.append_assoc]
      simp [hv]

/-- C9 amended: for every record type without `Init` hooks, iteration over
a constructed instance yields the declared field names first, in contract
declaration order; an extensible record then yields its passthrough names
in the order the construction iterated `values.keys() - fields.keys()` —
which is an arbitrary (hash-dependent) permutation of the extra input keys,
not necessarily the order in which they appeared in the input mapping. -/
theorem c9_iteration_order (rt : RecordType) (values : PyDict)
    (extraOrder : List String) (r : RecState)
    (hnoinit : rt.initHooks = [])
    (hwf : (fieldNames rt).contains "_initialized" = false)
    (hvk : "_initialized" ∉ dictKeys values)
    (hnodupv : (dictKeys values).Nodup)
    (hperm : extraOrder.Perm (extraKeys rt values))
    (hc : construct rt values extraOrder = .ok r) :
    (rt.extensible = true → genNames rt r = fieldNames rt ++ extraOrder) ∧
    (rt.extensible = false → genNames rt r = fieldNames rt) := by
  refine ⟨?_, fun hext => by simp [genNames, hext]⟩
  intro hext
  have hA := construct_ok_phaseA rt values extraOrder r hc
  simp only [constructPhaseA, pySetattr_initialized, hext, if_true, hnoinit,
    runInitHooks] at hA
  split at hA
  · cases hA
  · rename_i r2 hI
    cases hA
    simp only [initializeExtensible] at hI
    split at hI
    · cases hI
    · rename_i pairs hG
      split at hI
      · cases hI
      · rename_i rs hS
        have hnames := genFieldsFromInput_names rt.fields values pairs hG
        obtain ⟨hdyn0, hinit0⟩ := setFields_preserves rt pairs hwf
          ⟨Val.bool false, [], []⟩ rs hnames rfl hS
        have hexmem : ∀ k ∈ extraOrder, k ∉ fieldNames rt ∧ k ≠ "_initialized" := by
          intro k hk
          have hkex := hperm.mem_iff.mp hk
          obtain ⟨hkv, hknf⟩ := (mem_extraKeys rt values k).mp hkex
          exact ⟨hknf, fun hh => hvk (hh ▸ hkv)⟩
        have hnodupσ : extraOrder.Nodup :=
          hperm.nodup_iff.mpr (List.Nodup.filter _ hnodupv)
        have hinitrs : truthy rs.initialized = false := by
          rw [hinit0]
          rfl
        have hfreshrs : ∀ k ∈ extraOrder, dictGet rs.dyn k = Option.none := by
          intro k _
          rw [hdyn0]
          rfl
        obtain ⟨hdyn2, _⟩ := setExtras_dyn rt values hext extraOrder rs r2
          hexmem hnodupσ hinitrs hfreshrs hI
        rw [hdyn0] at hdyn2
        simp only [genNames, hext, if_true]
        rw [show ({ r2 with initialized := Val.bool true } : RecState).dyn = r2.dyn from rfl,
          hdyn2]
        simp only [dictKeys, List.nil_append, List.map_map]
        have hcomp : ((fun x : String × Val => x.1) ∘
            fun k => (k, (dictGet values k).getD Val.none)) = fun k => k := rfl
        rw [hcomp]
        simp

/-- The extensible instance built from `{"a": 1, "p": 2, "q": 3}` when the
set difference iterates as `q` then `p`. -/
def extInstQP : RecState :=
  ⟨Val.bool true, [("a", Val.int 1)], [("q", Val.int 3), ("p", Val.int 2)]⟩

/-- C9 is false as stated: the passthrough keys of an extensible record are
iterated via the Python set `values.keys() - self._fields.keys()`, whose
order is unspecified — the construction below iterates the admissible set
order `["q", "p"]` (a permutation of the extra keys) and the resulting
instance yields its passthrough fields as `q` then `p`, not in the input
order `p` then `q`. -/
theorem c9_counterexample :
    List.Perm ["q", "p"]
      (extraKeys extOneFieldType [("a", Val.int 1), ("p", Val.int 2), ("q", Val.int 3)]) ∧
    construct extOneFieldType [("a", Val.int 1), ("p", Val.int 2), ("q", Val.int 3)]
      ["q", "p"] = .ok extInstQP ∧
    genNames extOneFieldType extInstQP = ["a", "q", "p"] ∧
    (["a", "q", "p"] : List String) ≠ ["a", "p", "q"] := by
  refine ⟨by decide, rfl, rfl, by decide⟩

/-- Witness for C9 (amended), at an extensible and at a closed record. -/
theorem c9_iteration_order_witness :
    genNames extOneFieldType extInstQP = ["a", "q", "p"] ∧
    genNames oneFieldType oneFieldInst = ["id"] := by
  have h1 := c9_iteration_order extOneFieldType
    [("a", Val.int 1), ("p", Val.int 2), ("q", Val.int 3)] ["q", "p"] extInstQP
    rfl rfl (by decide) (by decide) (by decide) rfl
  have h2 := c9_iteration_order oneFieldType [("id", Val.int 1)] [] oneFieldInst
    rfl rfl (by decide) (by decide) (by decide) rfl
  exact ⟨h1.1 rfl, h2.2 rfl⟩

end Pycor
